import Mathlib

/-!
Verification of the recurrence data model in `exchangelib/recurrence.py`.

The module defines enumeration vocabularies (months, week numbers, weekday
names, extra weekday options), a specialized `ExtraWeekdaysField` with a
`clean` normalization step, a family of recurrence pattern records with
integer-bounded fields and string renderings, and occurrence records.

Python values flowing through `clean` are dynamically typed (strings or
integers); we embed them as the sum type `PyVal`.  Raised `ValueError`s are
embedded as the `CleanError` sum type carrying exactly the data interpolated
into each source message.  The foundation field framework (`.fields`,
`.folders`, `.properties`) is not part of this repository's sources; the
parts of its contract this module relies on are modelled from the spec and
marked as such below.
-/

namespace Recurrence

/-- `WEEK_NUMBERS` tuple (source lines 13-18): the DayOfWeekIndex enum. -/
def WEEK_NUMBERS : List String := ["First", "Second", "Third", "Fourth", "Last"]

/-- `MONTHS` tuple (source lines 21-33): the Month enum. -/
def MONTHS : List String :=
  ["January", "February", "March", "April", "May", "June", "July", "August",
   "September", "October", "November", "December"]

/-- `WEEKDAY_NAMES` tuple (source lines 36-43): the seven weekday names. -/
def WEEKDAY_NAMES : List String :=
  ["Monday", "Tuesday", "Wednesday", "Thursday", "Friday", "Saturday", "Sunday"]

/-- `EXTRA_WEEKDAY_OPTIONS` tuple (source lines 46-49). -/
def EXTRA_WEEKDAY_OPTIONS : List String := ["Day", "Weekday", "WeekendDay"]

/-- `WEEKDAYS = WEEKDAY_NAMES + EXTRA_WEEKDAY_OPTIONS` (source line 52):
the composite DaysOfWeek wire vocabulary. -/
def WEEKDAYS : List String := WEEKDAY_NAMES ++ EXTRA_WEEKDAY_OPTIONS

/-- A dynamically-typed Python value appearing in a weekday list: either a
string or an integer. -/
inductive PyVal where
  | pyStr (s : String)
  | pyInt (n : Int)
  deriving DecidableEq, Repr

/-- The argument shapes accepted by `ExtraWeekdaysField.clean`: a single
string (`isinstance(value, string_types)`), a single integer
(`isinstance(value, self.value_cls)` with `value_cls = int`), or a sequence
of values (converted by `list(value)`). -/
inductive CleanArg where
  | str (s : String)
  | int (n : Int)
  | list (vs : List PyVal)
  deriving DecidableEq, Repr

/-- The `ValueError`s raised by this module and the invalid-input failures of
the foundation field framework, each carrying the data interpolated into the
corresponding message. -/
inductive CleanError where
  /-- "Single value '%s' on field '%s' must be one of %s" (source lines 64-65):
  carries the offending value, the field name and the legal category strings. -/
  | singleValue (value : String) (fieldName : String) (legal : List String)
  /-- "List value '%s' on field '%s' must be one of %s" (source lines 74-75):
  the per-element string rejection. -/
  | listStrValue (value : String) (fieldName : String) (legal : List String)
  /-- "List value '%s' on field '%s' must be in range 1 -> 7" (source line 78):
  carries the offending value and the field name. -/
  | listRange (value : Int) (fieldName : String)
  /-- Modelled from the spec: rejection by the generic list-field validation
  step of the foundation framework (enum-membership enforcement), carrying the
  offending value, the field name and the legal vocabulary. -/
  | enumList (value : PyVal) (fieldName : String) (legal : List String)
  /-- Modelled from the spec: rejection by the framework's bounded-integer
  field, carrying the offending value, the field name and the legal bounds. -/
  | intBound (value : Int) (fieldName : String) (lo : Option Int) (hi : Option Int)
  /-- Modelled from the spec: rejection of an assignment to a field declared
  read-only. -/
  | readOnly (fieldName : String)
  deriving DecidableEq, Repr

/-- Python's `list.index(v)`: position of the first occurrence of `v`.
In the source it is only called under a membership guard, so the
out-of-list value never arises on the guarded paths. -/
def enumIndex : List String → String → Nat
  | [], _ => 0
  | x :: xs, v => if x = v then 0 else enumIndex xs v + 1

/-- Modelled from the spec: the generic list-field validation step
(`EnumListField.clean`) inherited from the foundation framework, absent from
src/.  Per §4.6/§4.2 it enforces enum membership over the field's vocabulary
(each stored element an integer wire index in `1 .. enum.length`) and raises
an invalid-input error carrying the offending value, the field name and the
vocabulary on rejection; an accepted canonical list is returned unchanged. -/
def enumListClean (fieldName : String) (enum : List String) (vs : List PyVal) :
    Except CleanError (List PyVal) :=
  match vs.find? (fun v => match v with
    | .pyInt n => !(decide (1 ≤ n ∧ n ≤ (enum.length : Int)))
    | .pyStr _ => true) with
  | some v => .error (.enumList v fieldName enum)
  | none => .ok vs

/-- One iteration of the element loop in `ExtraWeekdaysField.clean`
(source lines 71-78).  The source's first guard,
`isinstance(value, string_types)`, tests the whole converted sequence
`value = list(value)` rather than the element `v`; a list is never a string,
so that branch (weekday-name validation and conversion, lines 73-76) is dead
code, and only the `elif` integer range check (lines 77-78) is live: an
integer element outside `1 <= v <= 7` raises, and every other element is left
unchanged. -/
def extraWeekdaysCleanElem (fieldName : String) (v : PyVal) : Except CleanError PyVal :=
  match v with
  | .pyInt n => if 1 ≤ n ∧ n ≤ 7 then .ok (.pyInt n) else .error (.listRange n fieldName)
  | .pyStr s => .ok (.pyStr s)

/-- The element loop of `ExtraWeekdaysField.clean` over the converted list
(source lines 71-78): iterates in order and raises at the first offending
element. -/
def extraWeekdaysCleanList (fieldName : String) : List PyVal → Except CleanError (List PyVal)
  | [] => .ok []
  | v :: vs =>
      match extraWeekdaysCleanElem fieldName v with
      | .error e => .error e
      | .ok v' =>
          match extraWeekdaysCleanList fieldName vs with
          | .error e => .error e
          | .ok vs' => .ok (v' :: vs')

/-- The specialized normalization step of `ExtraWeekdaysField.clean`
(source lines 60-78), before delegation to the inherited clean:
- a single string must be one of `EXTRA_WEEKDAY_OPTIONS` and becomes the
  single-element list of its 1-based index in `WEEKDAYS` (`self.enum`);
- a single integer becomes a single-element list unchanged;
- anything else is converted to a list and element-checked by the loop. -/
def extraWeekdaysNormalize (fieldName : String) : CleanArg → Except CleanError (List PyVal)
  | .str value =>
      if value ∈ EXTRA_WEEKDAY_OPTIONS then
        .ok [.pyInt ((enumIndex WEEKDAYS value : Nat) + 1)]
      else
        .error (.singleValue value fieldName EXTRA_WEEKDAY_OPTIONS)
  | .int value => .ok [.pyInt value]
  | .list value => extraWeekdaysCleanList fieldName value

/-- `ExtraWeekdaysField.clean` (source lines 60-79): the specialized
normalization followed by `super().clean(value)`, the inherited list-field
validation over the `WEEKDAYS` vocabulary set in `__init__` (line 57). -/
def extraWeekdaysClean (fieldName : String) (arg : CleanArg) : Except CleanError (List PyVal) :=
  match extraWeekdaysNormalize fieldName arg with
  | .error e => .error e
  | .ok vs => enumListClean fieldName WEEKDAYS vs

/-- Python sequence indexing `l[i]` on a tuple of strings: a non-negative
index selects from the front, a negative index is offset by the length, and
an index out of range raises (`none`). -/
def nthOpt : List String → Nat → Option String
  | [], _ => none
  | x :: _, 0 => some x
  | _ :: xs, n + 1 => nthOpt xs n

/-- Python indexing with an `Int` index, as in `MONTHS[self.month - 1]`. -/
def pyIndex (l : List String) (i : Int) : Option String :=
  let j : Int := if 0 ≤ i then i else i + (l.length : Int)
  if 0 ≤ j then nthOpt l j.toNat else none

/-- The generator `WEEKDAYS[i - 1] for i in self.weekdays` (source lines 120,
158, 177): looks up each 1-based weekday value, raising (`none`) on an index
out of range. -/
def lookupWeekdays : List Int → Option (List String)
  | [] => some []
  | i :: is =>
      match pyIndex WEEKDAYS (i - 1), lookupWeekdays is with
      | some name, some rest => some (name :: rest)
      | _, _ => none

/-- The month name at a given 1-based wire index, written out from the §3.1
vocabulary table; used to state rendering theorems independently of the
indexing arithmetic of the source. -/
def monthNameSpec : Int → String
  | 1 => "January"
  | 2 => "February"
  | 3 => "March"
  | 4 => "April"
  | 5 => "May"
  | 6 => "June"
  | 7 => "July"
  | 8 => "August"
  | 9 => "September"
  | 10 => "October"
  | 11 => "November"
  | 12 => "December"
  | _ => ""

/-- The weekday vocabulary member at a given 1-based wire index, written out
from the §3.1 table (Monday=1 .. Sunday=7, Day=8, Weekday=9, WeekendDay=10). -/
def weekdayNameSpec : Int → String
  | 1 => "Monday"
  | 2 => "Tuesday"
  | 3 => "Wednesday"
  | 4 => "Thursday"
  | 5 => "Friday"
  | 6 => "Saturday"
  | 7 => "Sunday"
  | 8 => "Day"
  | 9 => "Weekday"
  | 10 => "WeekendDay"
  | _ => ""

/-- `AbsoluteYearlyPattern` (source lines 86-99): month in 1..12 and
day_of_month in 1..31, both held as Python integers. -/
structure AbsoluteYearlyPattern where
  month : Int
  day_of_month : Int
  deriving DecidableEq, Repr

/-- `AbsoluteYearlyPattern.__str__` (source lines 98-99):
`'Occurs on the %s. day of %s' % (self.day_of_month, MONTHS[self.month-1])`.
The indexing raises (`none`) when `month - 1` is out of range. -/
def AbsoluteYearlyPattern.render (p : AbsoluteYearlyPattern) : Option String :=
  match pyIndex MONTHS (p.month - 1) with
  | some m => some ("Occurs on the " ++ toString p.day_of_month ++ ". day of " ++ m)
  | none => none

/-- `WeeklyPattern` (source lines 162-173): interval in 1..99, a weekday list
over the 10-value vocabulary, and first_day_of_week (default 1). -/
structure WeeklyPattern where
  interval : Int
  weekdays : List Int
  first_day_of_week : Int
  deriving DecidableEq, Repr

/-- `WeeklyPattern.__str__` (source lines 175-178):
`'Occurs on weekdays %s of every %s. week where the first day of the week is %s'`
with the joined 1-based weekday lookups, the interval, and the 1-based
first-day-of-week lookup. -/
def WeeklyPattern.render (p : WeeklyPattern) : Option String :=
  match lookupWeekdays p.weekdays, pyIndex WEEKDAYS (p.first_day_of_week - 1) with
  | some names, some fdow =>
      some ("Occurs on weekdays " ++ String.intercalate ", " names ++ " of every "
        ++ toString p.interval ++ ". week where the first day of the week is " ++ fdow)
  | _, _ => none

/-- The declaration data of a bounded integer field: name and optional
`min`/`max` bounds, as passed to `IntegerField(...)` in the source. -/
structure IntegerFieldSpec where
  name : String
  lo : Option Int
  hi : Option Int
  deriving DecidableEq, Repr

/-- Whether `v` satisfies the declared optional bounds. -/
def withinBounds (lo hi : Option Int) (v : Int) : Bool :=
  (match lo with
   | some m => decide (m ≤ v)
   | none => true) &&
  (match hi with
   | some m => decide (v ≤ m)
   | none => true)

/-- Modelled from the spec: the bounded-integer field's clean step
(`IntegerField.clean`, foundation framework, absent from src/).  Per §4.6 and
§4.3 it is invoked whenever a value is assigned and fails with an
invalid-input error — carrying the offending value, the field name and the
legal bounds — exactly when the value violates a declared bound; an accepted
value is stored unchanged. -/
def IntegerFieldSpec.clean (f : IntegerFieldSpec) (v : Int) : Except CleanError Int :=
  if withinBounds f.lo f.hi v then .ok v
  else .error (.intBound v f.name f.lo f.hi)

/-- The `interval` field of `DailyPattern` (source line 187):
`IntegerField('interval', field_uri='t:Interval', min=1, max=999)`. -/
def dailyIntervalField : IntegerFieldSpec := ⟨"interval", some 1, some 999⟩

/-- The `interval` field of `AbsoluteMonthlyPattern` (source line 130):
`IntegerField('interval', field_uri='t:Interval', min=1, max=99)`. -/
def absoluteMonthlyIntervalField : IntegerFieldSpec := ⟨"interval", some 1, some 99⟩

/-- The `number` field of `NumberedPattern` (source line 224):
`IntegerField('number', field_uri='t:NumberOfOccurrences', min=0)` — a lower
bound of 0 and no upper bound. -/
def numberedNumberField : IntegerFieldSpec := ⟨"number", some 0, none⟩

/-- `DailyPattern` (source lines 181-191): a single bounded interval field. -/
structure DailyPattern where
  interval : Int
  deriving DecidableEq, Repr

/-- Assignment of the `interval` field of a `DailyPattern`: the value passes
through the field's clean step at assignment time (spec §4.6/§4.3) and, on
success, replaces the stored value. -/
def DailyPattern.set_interval (_p : DailyPattern) (v : Int) : Except CleanError DailyPattern :=
  match dailyIntervalField.clean v with
  | .error e => .error e
  | .ok w => .ok ⟨w⟩

/-- `AbsoluteMonthlyPattern` (source lines 124-137): bounded interval and
day_of_month fields. -/
structure AbsoluteMonthlyPattern where
  interval : Int
  day_of_month : Int
  deriving DecidableEq, Repr

/-- Assignment of the `interval` field of an `AbsoluteMonthlyPattern` through
its clean step. -/
def AbsoluteMonthlyPattern.set_interval (p : AbsoluteMonthlyPattern) (v : Int) :
    Except CleanError AbsoluteMonthlyPattern :=
  match absoluteMonthlyIntervalField.clean v with
  | .error e => .error e
  | .ok w => .ok { p with interval := w }

/-- A calendar date (`EWSDate`), opaque at this layer: the date-typed fields
carry it through unchanged. -/
structure EWSDate where
  year : Int
  month : Int
  day : Int
  deriving DecidableEq, Repr

/-- `NumberedPattern` (source lines 216-225): a start date and the number of
occurrences. -/
structure NumberedPattern where
  start : EWSDate
  number : Int
  deriving DecidableEq, Repr

/-- Construction of a `NumberedPattern`: the `number` value passes through
its field's clean step (spec §4.6: validation is invoked whenever a value is
assigned, construction included); the date field's kind check accepts every
structurally well-formed `EWSDate`. -/
def NumberedPattern.make (start : EWSDate) (number : Int) : Except CleanError NumberedPattern :=
  match numberedNumberField.clean number with
  | .error e => .error e
  | .ok n => .ok ⟨start, n⟩

/-- An item identity reference (`ItemId`): an opaque identifier plus a change
token. -/
structure ItemId where
  id : String
  changekey : String
  deriving DecidableEq, Repr

/-- A date-time value (`EWSDateTime`), opaque at this layer. -/
structure EWSDateTime where
  ts : Int
  deriving DecidableEq, Repr

/-- The declaration data of an element field as consumed here: its name and
read-only flag. -/
structure ElementFieldSpec where
  name : String
  is_read_only : Bool
  deriving DecidableEq, Repr

/-- The `item` field of `Occurrence` (source line 234):
`EWSElementField('item', value_cls=ItemId, is_read_only=True)`. -/
def occurrenceItemField : ElementFieldSpec := ⟨"item", true⟩

/-- The `start` field of `Occurrence` (source line 236): a writable
date-time field. -/
def occurrenceStartField : ElementFieldSpec := ⟨"start", false⟩

/-- The `end` field of `Occurrence` (source line 238): a writable date-time
field. -/
def occurrenceEndField : ElementFieldSpec := ⟨"end", false⟩

/-- The `original_start` field of `Occurrence` (source line 240): a writable
date-time field. -/
def occurrenceOriginalStartField : ElementFieldSpec := ⟨"original_start", false⟩

/-- `Occurrence` (source lines 228-241): an item reference and three
date-time fields. -/
structure Occurrence where
  item : Option ItemId
  start : Option EWSDateTime
  «end» : Option EWSDateTime
  original_start : Option EWSDateTime
  deriving DecidableEq, Repr

/-- Modelled from the spec: post-construction assignment to the `item` field.
The foundation framework's read-only enforcement is absent from src/; per
§4.6 and §4.4 a field declared read-only rejects reassignment after
construction, so the assignment consults the declared flag and fails without
touching the record. -/
def Occurrence.set_item (o : Occurrence) (v : ItemId) : Except CleanError Occurrence :=
  if occurrenceItemField.is_read_only then .error (.readOnly occurrenceItemField.name)
  else .ok { o with item := some v }

/-- Modelled from the spec: post-construction assignment to the `start`
field, a writable date-time field whose kind check accepts every
`EWSDateTime`; only the assigned field changes. -/
def Occurrence.set_start (o : Occurrence) (v : EWSDateTime) : Except CleanError Occurrence :=
  if occurrenceStartField.is_read_only then .error (.readOnly occurrenceStartField.name)
  else .ok { o with start := some v }

/-- Modelled from the spec: post-construction assignment to the `end` field,
a writable date-time field; only the assigned field changes. -/
def Occurrence.set_end (o : Occurrence) (v : EWSDateTime) : Except CleanError Occurrence :=
  if occurrenceEndField.is_read_only then .error (.readOnly occurrenceEndField.name)
  else .ok { o with «end» := some v }

/-- Modelled from the spec: post-construction assignment to the
`original_start` field, a writable date-time field; only the assigned field
changes. -/
def Occurrence.set_original_start (o : Occurrence) (v : EWSDateTime) :
    Except CleanError Occurrence :=
  if occurrenceOriginalStartField.is_read_only then
    .error (.readOnly occurrenceOriginalStartField.name)
  else .ok { o with original_start := some v }

/-- The inherited list-field validation accepts every list of integer wire
indices in `1..10` unchanged. -/
lemma enumListClean_intList_ok (fld : String) (ns : List Int)
    (h : ∀ n ∈ ns, 1 ≤ n ∧ n ≤ 10) :
    enumListClean fld WEEKDAYS (ns.map .pyInt) = .ok (ns.map .pyInt) := by
  have hnone : ((ns.map PyVal.pyInt).find? fun v => match v with
      | .pyInt n => !(decide (1 ≤ n ∧ n ≤ (WEEKDAYS.length : Int)))
      | .pyStr _ => true) = none := by
    refine List.find?_eq_none.mpr ?_
    intro v hv
    rw [List.mem_map] at hv
    obtain ⟨n, hn, rfl⟩ := hv
    have hb := h n hn
    show ¬(!(decide (1 ≤ n ∧ n ≤ (WEEKDAYS.length : Int)))) = true
    simp [WEEKDAYS, WEEKDAY_NAMES, EXTRA_WEEKDAY_OPTIONS]
    omega
  unfold enumListClean
  rw [hnone]

/-- The element loop over a list of integers either leaves the list unchanged
(every element in `1..7`) or raises `listRange` at an offending element. -/
lemma extraWeekdaysCleanList_int_cases (fld : String) (ns : List Int) :
    ((∀ n ∈ ns, 1 ≤ n ∧ n ≤ 7) ∧
      extraWeekdaysCleanList fld (ns.map .pyInt) = .ok (ns.map .pyInt)) ∨
    (∃ n ∈ ns, (n < 1 ∨ 7 < n) ∧
      extraWeekdaysCleanList fld (ns.map .pyInt) = .error (.listRange n fld)) := by
  induction ns with
  | nil => exact Or.inl ⟨by simp, rfl⟩
  | cons a tl ih =>
    by_cases ha : 1 ≤ a ∧ a ≤ 7
    · rcases ih with ⟨hall, heq⟩ | ⟨n, hn, hout, heq⟩
      · refine Or.inl ⟨?_, ?_⟩
        · intro n hn
          rcases List.mem_cons.mp hn with rfl | hmem
          · exact ha
          · exact hall n hmem
        · simp [extraWeekdaysCleanList, extraWeekdaysCleanElem, ha, heq]
      · refine Or.inr ⟨n, List.mem_cons_of_mem a hn, hout, ?_⟩
        simp [extraWeekdaysCleanList, extraWeekdaysCleanElem, ha, heq]
    · refine Or.inr ⟨a, List.mem_cons_self a tl, by omega, ?_⟩
      simp [extraWeekdaysCleanList, extraWeekdaysCleanElem, ha]

/-- Python indexing `WEEKDAYS[i - 1]` agrees with the 1-based vocabulary
table on `1..10`. -/
lemma pyIndex_weekdays_spec (i : Int) (h1 : 1 ≤ i) (h2 : i ≤ 10) :
    pyIndex WEEKDAYS (i - 1) = some (weekdayNameSpec i) := by
  interval_cases i <;> rfl

/-- The weekday-name generator maps each valid 1-based value to its
vocabulary name. -/
lemma lookupWeekdays_spec (ws : List Int) (h : ∀ i ∈ ws, 1 ≤ i ∧ i ≤ 10) :
    lookupWeekdays ws = some (ws.map weekdayNameSpec) := by
  induction ws with
  | nil => rfl
  | cons a tl ih =>
    have ha := h a (List.mem_cons_self a tl)
    have hpy := pyIndex_weekdays_spec a ha.1 ha.2
    have htl := ih (fun i hi => h i (List.mem_cons_of_mem a hi))
    simp [lookupWeekdays, hpy, htl]

/-- The bounded-integer clean with both bounds declared is the evident range
check. -/
lemma integerField_clean_minmax (name : String) (lo hi v : Int) :
    IntegerFieldSpec.clean ⟨name, some lo, some hi⟩ v =
      if lo ≤ v ∧ v ≤ hi then .ok v
      else .error (.intBound v name (some lo) (some hi)) := by
  by_cases h : lo ≤ v ∧ v ≤ hi
  · simp [IntegerFieldSpec.clean, withinBounds, h.1, h.2]
  · rw [if_neg h]
    rcases not_and_or.mp h with h1 | h1 <;>
      simp [IntegerFieldSpec.clean, withinBounds, h1]

/-- The bounded-integer clean with only a lower bound declared is the evident
one-sided check. -/
lemma integerField_clean_min (name : String) (lo v : Int) :
    IntegerFieldSpec.clean ⟨name, some lo, none⟩ v =
      if lo ≤ v then .ok v
      else .error (.intBound v name (some lo) none) := by
  by_cases h : lo ≤ v <;> simp [IntegerFieldSpec.clean, withinBounds, h]

/-- C1: for every single string passed to the extra-weekdays field's clean,
the strings "Day", "Weekday", "WeekendDay" normalize to the single-element
lists `[8]`, `[9]`, `[10]` respectively, and any other string raises an
invalid-input error carrying the offending value, the field name and the set
of legal category strings. -/
theorem extraWeekdays_clean_single_string (fld s : String) :
    extraWeekdaysClean fld (.str s) =
      if s = "Day" then .ok [.pyInt 8]
      else if s = "Weekday" then .ok [.pyInt 9]
      else if s = "WeekendDay" then .ok [.pyInt 10]
      else .error (.singleValue s fld EXTRA_WEEKDAY_OPTIONS) := by
  by_cases h1 : s = "Day"
  · subst h1; rfl
  · by_cases h2 : s = "Weekday"
    · subst h2; rfl
    · by_cases h3 : s = "WeekendDay"
      · subst h3; rfl
      · rw [if_neg h1, if_neg h2, if_neg h3]
        have hmem : s ∉ EXTRA_WEEKDAY_OPTIONS := by
          simp only [EXTRA_WEEKDAY_OPTIONS, List.mem_cons, List.mem_singleton,
            List.not_mem_nil, or_false]
          push_neg
          exact ⟨h1, h2, h3⟩
        simp [extraWeekdaysClean, extraWeekdaysNormalize, hmem]

/-- C2: for every sequence of integers passed to the extra-weekdays field's
clean, an invalid-input error is raised exactly when some element lies
outside `1..7`; every raised error is `listRange` naming an offending element
and the field, and an all-valid list is returned unchanged. -/
theorem extraWeekdays_clean_int_list (fld : String) (ns : List Int) :
    ((∃ e, extraWeekdaysClean fld (.list (ns.map .pyInt)) = .error e) ↔
      ∃ n ∈ ns, n < 1 ∨ 7 < n)
    ∧ (∀ e, extraWeekdaysClean fld (.list (ns.map .pyInt)) = .error e →
        ∃ n ∈ ns, (n < 1 ∨ 7 < n) ∧ e = .listRange n fld)
    ∧ ((∀ n ∈ ns, 1 ≤ n ∧ n ≤ 7) →
        extraWeekdaysClean fld (.list (ns.map .pyInt)) = .ok (ns.map .pyInt)) := by
  have hok : (∀ n ∈ ns, 1 ≤ n ∧ n ≤ 7) →
      extraWeekdaysClean fld (.list (ns.map .pyInt)) = .ok (ns.map .pyInt) := by
    intro hall
    rcases extraWeekdaysCleanList_int_cases fld ns with ⟨_, heq⟩ | ⟨n, hn, hout, _⟩
    · have h10 : ∀ n ∈ ns, 1 ≤ n ∧ n ≤ 10 := fun n hn =>
        ⟨(hall n hn).1, le_trans (hall n hn).2 (by norm_num)⟩
      simp [extraWeekdaysClean, extraWeekdaysNormalize, heq,
        enumListClean_intList_ok fld ns h10]
    · exact absurd (hall n hn) (by omega)
  have herr : ∀ e, extraWeekdaysClean fld (.list (ns.map .pyInt)) = .error e →
      ∃ n ∈ ns, (n < 1 ∨ 7 < n) ∧ e = .listRange n fld := by
    intro e he
    rcases extraWeekdaysCleanList_int_cases fld ns with ⟨hall, _⟩ | ⟨n, hn, hout, heq⟩
    · rw [hok hall] at he
      exact absurd he (by simp)
    · refine ⟨n, hn, hout, ?_⟩
      have hcl : extraWeekdaysClean fld (.list (ns.map .pyInt)) =
          .error (.listRange n fld) := by
        simp [extraWeekdaysClean, extraWeekdaysNormalize, heq]
      rw [hcl] at he
      exact (Except.error.inj he).symm
  refine ⟨⟨?_, ?_⟩, herr, hok⟩
  · rintro ⟨e, he⟩
    obtain ⟨n, hn, hout, _⟩ := herr e he
    exact ⟨n, hn, hout⟩
  · rintro ⟨n, hn, hout⟩
    rcases extraWeekdaysCleanList_int_cases fld ns with ⟨hall, _⟩ | ⟨m, hm, hmout, heq⟩
    · exact absurd (hall n hn) (by omega)
    · exact ⟨.listRange m fld, by simp [extraWeekdaysClean, extraWeekdaysNormalize, heq]⟩

/-- Witness for C2: `[1, 3, 5]` is accepted unchanged and `[1, 8]` is
rejected. -/
theorem extraWeekdays_clean_int_list_witness :
    extraWeekdaysClean "weekdays" (.list [.pyInt 1, .pyInt 3, .pyInt 5]) =
      .ok [.pyInt 1, .pyInt 3, .pyInt 5]
    ∧ (∃ e, extraWeekdaysClean "weekdays" (.list [.pyInt 1, .pyInt 8]) = .error e) :=
  ⟨(extraWeekdays_clean_int_list "weekdays" [1, 3, 5]).2.2 (by decide),
   ((extraWeekdays_clean_int_list "weekdays" [1, 8]).1).mpr ⟨8, by decide⟩⟩

/-- C3: the claimed per-element validation and conversion of string elements
inside a sequence never happens: the guard on source line 72 tests the type
of the whole converted list instead of the element, so an unrecognized string
is passed through the normalization step without the claimed invalid-input
error and a recognized weekday name is not converted to its 1-based index. -/
theorem extraWeekdays_list_string_branch_dead :
    extraWeekdaysNormalize "weekdays" (.list [.pyStr "NotAWeekday"]) =
      .ok [.pyStr "NotAWeekday"]
    ∧ extraWeekdaysNormalize "weekdays" (.list [.pyStr "Monday", .pyInt 3]) =
      .ok [.pyStr "Monday", .pyInt 3]
    ∧ extraWeekdaysNormalize "weekdays" (.list [.pyStr "Monday"]) ≠ .ok [.pyInt 1] :=
  ⟨rfl, rfl, by
    intro h
    have h2 := Except.ok.inj h
    simp at h2⟩

/-- C4: the composite `WEEKDAYS` vocabulary is the 7 weekday names
Monday..Sunday followed by Day, Weekday, WeekendDay (10 values), `MONTHS` has
the 12 month names in order and `WEEK_NUMBERS` the 5 ordinals in order, and
in each vocabulary every member's 1-based position equals its wire index
(in particular Day=8, Weekday=9, WeekendDay=10). -/
theorem weekdays_vocabulary_indices :
    WEEKDAYS = ["Monday", "Tuesday", "Wednesday", "Thursday", "Friday", "Saturday",
      "Sunday", "Day", "Weekday", "WeekendDay"]
    ∧ WEEKDAYS = WEEKDAY_NAMES ++ EXTRA_WEEKDAY_OPTIONS
    ∧ WEEKDAYS.length = 10
    ∧ MONTHS = ["January", "February", "March", "April", "May", "June", "July",
      "August", "September", "October", "November", "December"]
    ∧ MONTHS.length = 12
    ∧ WEEK_NUMBERS = ["First", "Second", "Third", "Fourth", "Last"]
    ∧ WEEK_NUMBERS.length = 5
    ∧ (∀ i : Fin WEEKDAYS.length, enumIndex WEEKDAYS (WEEKDAYS.get i) + 1 = i.val + 1)
    ∧ (∀ i : Fin MONTHS.length, enumIndex MONTHS (MONTHS.get i) + 1 = i.val + 1)
    ∧ (∀ i : Fin WEEK_NUMBERS.length,
        enumIndex WEEK_NUMBERS (WEEK_NUMBERS.get i) + 1 = i.val + 1)
    ∧ enumIndex WEEKDAYS "Day" + 1 = 8
    ∧ enumIndex WEEKDAYS "Weekday" + 1 = 9
    ∧ enumIndex WEEKDAYS "WeekendDay" + 1 = 10 := by
  decide

/-- C5: for every valid AbsoluteYearlyPattern (month in 1..12, day_of_month
in 1..31), rendering produces exactly
"Occurs on the {day_of_month}. day of {month name}" with the month name
looked up 1-based. -/
theorem absoluteYearly_render_format (m d : Int)
    (hm1 : 1 ≤ m) (hm2 : m ≤ 12) (_hd1 : 1 ≤ d) (_hd2 : d ≤ 31) :
    AbsoluteYearlyPattern.render ⟨m, d⟩ =
      some ("Occurs on the " ++ toString d ++ ". day of " ++ monthNameSpec m) := by
  interval_cases m <;> rfl

/-- Witness for C5: month 3, day 15 renders exactly
"Occurs on the 15. day of March". -/
theorem absoluteYearly_render_format_witness :
    AbsoluteYearlyPattern.render ⟨3, 15⟩ = some "Occurs on the 15. day of March" :=
  (absoluteYearly_render_format 3 15 (by decide) (by decide) (by decide) (by decide)).trans
    (by rfl)

/-- C6: for every valid WeeklyPattern, rendering produces exactly
"Occurs on weekdays {joined names} of every {interval}. week where the first
day of the week is {first day name}", with the comma-and-space joined
1-based weekday lookups. -/
theorem weekly_render_format (iv : Int) (ws : List Int) (f : Int)
    (_hiv1 : 1 ≤ iv) (_hiv2 : iv ≤ 99)
    (hw : ∀ i ∈ ws, 1 ≤ i ∧ i ≤ 10) (hf1 : 1 ≤ f) (hf2 : f ≤ 10) :
    WeeklyPattern.render ⟨iv, ws, f⟩ =
      some ("Occurs on weekdays "
        ++ String.intercalate ", " (ws.map weekdayNameSpec) ++ " of every "
        ++ toString iv ++ ". week where the first day of the week is "
        ++ weekdayNameSpec f) := by
  simp [WeeklyPattern.render, lookupWeekdays_spec ws hw, pyIndex_weekdays_spec f hf1 hf2]

/-- Witness for C6: interval 2, weekdays [1, 3], first day 1 renders the
exact claimed string. -/
theorem weekly_render_format_witness :
    WeeklyPattern.render ⟨2, [1, 3], 1⟩ =
      some "Occurs on weekdays Monday, Wednesday of every 2. week where the first day of the week is Monday" :=
  (weekly_render_format 2 [1, 3] 1 (by decide) (by decide) (by decide) (by decide)
    (by decide)).trans (by rfl)

/-- C7: assigning an interval to a DailyPattern succeeds exactly on 1..999
and otherwise fails at assignment time with an invalid-input error, and
assigning an interval to an AbsoluteMonthlyPattern succeeds exactly on 1..99
and otherwise fails the same way. -/
theorem interval_bounds_enforced (p : DailyPattern) (q : AbsoluteMonthlyPattern) (v : Int) :
    (p.set_interval v = .ok ⟨v⟩ ↔ 1 ≤ v ∧ v ≤ 999)
    ∧ (¬(1 ≤ v ∧ v ≤ 999) →
        p.set_interval v = .error (.intBound v "interval" (some 1) (some 999)))
    ∧ (q.set_interval v = .ok { q with interval := v } ↔ 1 ≤ v ∧ v ≤ 99)
    ∧ (¬(1 ≤ v ∧ v ≤ 99) →
        q.set_interval v = .error (.intBound v "interval" (some 1) (some 99))) := by
  have hd := integerField_clean_minmax "interval" 1 999 v
  have hm := integerField_clean_minmax "interval" 1 99 v
  refine ⟨?_, ?_, ?_, ?_⟩
  · by_cases h : 1 ≤ v ∧ v ≤ 999 <;>
      simp [DailyPattern.set_interval, dailyIntervalField, hd, h]
  · intro h
    simp [DailyPattern.set_interval, dailyIntervalField, hd, h]
  · by_cases h : 1 ≤ v ∧ v ≤ 99 <;>
      simp [AbsoluteMonthlyPattern.set_interval, absoluteMonthlyIntervalField, hm, h]
  · intro h
    simp [AbsoluteMonthlyPattern.set_interval, absoluteMonthlyIntervalField, hm, h]

/-- Witness for C7: 1000 fails and 999 succeeds on DailyPattern; 100 fails
and 99 succeeds on AbsoluteMonthlyPattern. -/
theorem interval_bounds_enforced_witness :
    DailyPattern.set_interval ⟨1⟩ 1000 =
      .error (.intBound 1000 "interval" (some 1) (some 999))
    ∧ DailyPattern.set_interval ⟨1⟩ 999 = .ok ⟨999⟩
    ∧ AbsoluteMonthlyPattern.set_interval ⟨1, 1⟩ 100 =
      .error (.intBound 100 "interval" (some 1) (some 99))
    ∧ AbsoluteMonthlyPattern.set_interval ⟨1, 1⟩ 99 = .ok ⟨99, 1⟩ :=
  ⟨(interval_bounds_enforced ⟨1⟩ ⟨1, 1⟩ 1000).2.1 (by decide),
   ((interval_bounds_enforced ⟨1⟩ ⟨1, 1⟩ 999).1).mpr (by decide),
   (interval_bounds_enforced ⟨1⟩ ⟨1, 1⟩ 100).2.2.2 (by decide),
   ((interval_bounds_enforced ⟨1⟩ ⟨1, 1⟩ 99).2.2.1).mpr (by decide)⟩

/-- C8: constructing a NumberedPattern succeeds exactly when the occurrence
count is non-negative; a negative count fails with an invalid-input error,
and the number field declares a lower bound of 0 and no upper bound. -/
theorem numbered_number_lower_bound (start : EWSDate) (n : Int) :
    (NumberedPattern.make start n = .ok ⟨start, n⟩ ↔ 0 ≤ n)
    ∧ (n < 0 → NumberedPattern.make start n = .error (.intBound n "number" (some 0) none))
    ∧ numberedNumberField.lo = some 0 ∧ numberedNumberField.hi = none := by
  have hc := integerField_clean_min "number" 0 n
  refine ⟨?_, ?_, rfl, rfl⟩
  · by_cases h : 0 ≤ n <;>
      simp [NumberedPattern.make, numberedNumberField, hc, h]
  · intro h
    have h2 : ¬ 0 ≤ n := by omega
    simp [NumberedPattern.make, numberedNumberField, hc, h2]

/-- Witness for C8: number = -1 fails and number = 0 succeeds. -/
theorem numbered_number_lower_bound_witness :
    (∃ e, NumberedPattern.make ⟨2020, 1, 1⟩ (-1) = .error e)
    ∧ NumberedPattern.make ⟨2020, 1, 1⟩ 0 = .ok ⟨⟨2020, 1, 1⟩, 0⟩ :=
  ⟨⟨_, (numbered_number_lower_bound ⟨2020, 1, 1⟩ (-1)).2.1 (by decide)⟩,
   ((numbered_number_lower_bound ⟨2020, 1, 1⟩ 0).1).mpr (by decide)⟩

/-- C9: reassigning the read-only item field of any constructed Occurrence
fails, while assigning start, end or original_start succeeds and changes only
the assigned field, leaving item and the other date-time fields unchanged. -/
theorem occurrence_item_read_only (o : Occurrence) (v : ItemId) (t : EWSDateTime) :
    (∃ e, o.set_item v = .error e)
    ∧ o.set_start t = .ok { o with start := some t }
    ∧ o.set_end t = .ok { o with «end» := some t }
    ∧ o.set_original_start t = .ok { o with original_start := some t }
    ∧ (∀ o2, o.set_start t = .ok o2 →
        o2.item = o.item ∧ o2.«end» = o.«end» ∧ o2.original_start = o.original_start) := by
  refine ⟨⟨.readOnly "item", rfl⟩, rfl, rfl, rfl, ?_⟩
  intro o2 h
  have h2 : ({ o with start := some t } : Occurrence) = o2 := by
    have hs : o.set_start t = .ok { o with start := some t } := rfl
    rw [hs] at h
    exact Except.ok.inj h
  subst h2
  exact ⟨rfl, rfl, rfl⟩

/-- Witness for C9: on a concrete Occurrence, reassigning item fails and
assigning start leaves the other fields unchanged. -/
theorem occurrence_item_read_only_witness :
    (∃ e, Occurrence.set_item ⟨none, none, none, none⟩ ⟨"id1", "ck1"⟩ = .error e)
    ∧ Occurrence.set_start ⟨none, none, none, none⟩ ⟨5⟩ =
        .ok ⟨none, some ⟨5⟩, none, none⟩
    ∧ ((⟨none, some ⟨5⟩, none, none⟩ : Occurrence).item =
          (⟨none, none, none, none⟩ : Occurrence).item
        ∧ (⟨none, some ⟨5⟩, none, none⟩ : Occurrence).«end» =
          (⟨none, none, none, none⟩ : Occurrence).«end»
        ∧ (⟨none, some ⟨5⟩, none, none⟩ : Occurrence).original_start =
          (⟨none, none, none, none⟩ : Occurrence).original_start) :=
  ⟨(occurrence_item_read_only ⟨none, none, none, none⟩ ⟨"id1", "ck1"⟩ ⟨5⟩).1,
   (occurrence_item_read_only ⟨none, none, none, none⟩ ⟨"id1", "ck1"⟩ ⟨5⟩).2.1,
   (occurrence_item_read_only ⟨none, none, none, none⟩ ⟨"id1", "ck1"⟩ ⟨5⟩).2.2.2.2
     ⟨none, some ⟨5⟩, none, none⟩ rfl⟩

/-- C10: the specialized normalization step performed before delegating to
the inherited list-field clean is the identity on every list of integers in
1..7, hence idempotent on canonical input. -/
theorem extraWeekdays_normalize_idempotent (fld : String) (ns : List Int)
    (h : ∀ n ∈ ns, 1 ≤ n ∧ n ≤ 7) :
    extraWeekdaysNormalize fld (.list (ns.map .pyInt)) = .ok (ns.map .pyInt) ∧
    ∀ vs, extraWeekdaysNormalize fld (.list (ns.map .pyInt)) = .ok vs →
      extraWeekdaysNormalize fld (.list vs) = .ok vs := by
  have hone : extraWeekdaysNormalize fld (.list (ns.map .pyInt)) = .ok (ns.map .pyInt) := by
    rcases extraWeekdaysCleanList_int_cases fld ns with ⟨_, heq⟩ | ⟨n, hn, hout, _⟩
    · exact heq
    · exact absurd (h n hn) (by omega)
  refine ⟨hone, ?_⟩
  intro vs hvs
  rw [hone] at hvs
  cases hvs
  exact hone

/-- Witness for C10: the normalization fixes the canonical list [1, 3, 5]. -/
theorem extraWeekdays_normalize_idempotent_witness :
    extraWeekdaysNormalize "weekdays" (.list [.pyInt 1, .pyInt 3, .pyInt 5]) =
      .ok [.pyInt 1, .pyInt 3, .pyInt 5] :=
  (extraWeekdays_normalize_idempotent "weekdays" [1, 3, 5] (by decide)).1

end Recurrence
